import Mathlib

/-!
Verification of the Auklet wrapper (`src/wrap/wrap.go`), a process-supervising
telemetry relay.  The concurrent goroutine loops are shallowly embedded as
sequential functions over the finite sequences of messages that flow through
each Go channel; external collaborators (the JSON codec, the Kafka broker
send, the HTTP client) are parameters supplied as `Except`-returning
functions, so that both their success and their failure paths are represented.
Go `panic` / `log.Panic` is modelled as `Except.error`; float-valued metrics
are carried opaquely (their arithmetic is never relied upon), with `Int` as
the carrier.
-/

namespace Wrap

/-- JSON values, the carrier of a Profile's opaque payload
(`interface%x7b%x7d` filled by `json.Unmarshal`). -/
inductive Json where
  | null : Json
  | bool (b : Bool) : Json
  | num (n : Int) : Json
  | str (s : String) : Json
  | arr (elems : List Json) : Json
  | obj (fields : List (String × Json)) : Json

/-- `System` struct (wrap.go:57-62): system-wide metrics embedded in an Event.
The Go fields are float64/uint64; floats are carried opaquely as `Int`. -/
structure System where
  cpuPercent : Int
  memPercent : Int
  inbound : Nat
  outbound : Nat
deriving DecidableEq, Repr

/-- `Event` struct (wrap.go:65-72): the terminal outcome of the child. -/
structure Event where
  checkSum : String
  uuid : String
  time : Nat
  status : Int
  signal : String
  systemMetrics : System
deriving DecidableEq, Repr

/-- `Profile` struct (wrap.go:182-186): one instrumentation record from the
data channel. -/
structure Profile where
  checkSum : String
  uuid : String
  profile : Json

/-- The `Object` interface (wrap.go:33-36) with its two implementations,
modelled as a closed tagged variant. -/
inductive Object where
  | ev (e : Event) : Object
  | prof (p : Profile) : Object

/-- `(e *Event) brand()` (wrap.go:78-81): assign a fresh UUID and the global
checksum.  The UUID generator's output and the global `cksum` are passed
explicitly. -/
def Event.brand (u cks : String) (e : Event) : Event :=
  { e with uuid := u, checkSum := cks }

/-- `(p *Profile) brand()` (wrap.go:192-195). -/
def Profile.brand (u cks : String) (p : Profile) : Profile :=
  { p with uuid := u, checkSum := cks }

/-- Dynamic dispatch of `o.brand()` over the two `Object` variants. -/
def Object.brand (u cks : String) : Object → Object
  | .ev e => .ev (e.brand u cks)
  | .prof p => .prof (p.brand u cks)

/-- The checksum field of either variant. -/
def Object.checkSum : Object → String
  | .ev e => e.checkSum
  | .prof p => p.checkSum

/-- The uuid field of either variant. -/
def Object.uuid : Object → String
  | .ev e => e.uuid
  | .prof p => p.uuid

/-- The environment of the `produce` goroutine (wrap.go:311-332): the global
`cksum` (wrap.go:344, assigned once at wrap.go:408), the UUID source
(`uuid.NewV4`, modelled as a function of a draw counter), the topic
configuration (`envar`), and the external collaborators `json.Marshal` and
`SyncProducer.SendMessage`. -/
structure ProdEnv where
  cksum : String
  uuidGen : Nat → String
  eventTopic : String
  profTopic : String
  marshal : Object → Except String String
  send : String → String → Except String Unit

/-- `topic()` dispatch (wrap.go:74-76, 188-190): Events go to
`envar["EVENT_TOPIC"]`, Profiles to `envar["PROF_TOPIC"]`. -/
def Object.topic (G : ProdEnv) : Object → String
  | .ev _ => G.eventTopic
  | .prof _ => G.profTopic

/-- One message delivered to the broker: the topic, the wire bytes, and (for
specification purposes) the branded object whose encoding was sent. -/
structure Delivery where
  topic : String
  value : String
  obj : Object

/-- The body of the `produce` loop for a single dequeued object
(wrap.go:313-329): brand it, `json.Marshal` it, send it synchronously.
Either failure is surfaced as `Except.error`. -/
def processItem (G : ProdEnv) (o : Object) (n : Nat) : Except String Delivery :=
  let o' := o.brand (G.uuidGen n) G.cksum
  match G.marshal o' with
  | .error e => .error e
  | .ok b =>
    match G.send (o'.topic G) b with
    | .error e => .error e
    | .ok _ => .ok ⟨o'.topic G, b, o'⟩

/-- The `produce` goroutine's loop (wrap.go:311-332): drain the object
channel in order, one item at a time, each send completing before the next
dequeue; on the first serialization or delivery error, send the error on
`done` and return (remaining items are never dequeued); when the channel is
closed and drained, send `nil` on `done`.  The argument list is the sequence
of objects enqueued before the channel was closed; `n` is the UUID draw
counter.  Returns (deliveries in order, the error sent on `done`). -/
def produceLoop (G : ProdEnv) : List Object → Nat → List Delivery × Option String
  | [], _ => ([], none)
  | o :: rest, n =>
    match processItem G o n with
    | .error e => ([], some e)
    | .ok d =>
      let r := produceLoop G rest (n + 1)
      (d :: r.1, r.2)

/-- The close handle returned by `produce` (wrap.go:334-341) and by `relay`
(wrap.go:257-264): block on `done`, log the retained error if non-nil, close
the resource.  Returns the list of logged error messages; it never aborts the
process. -/
def closeHandleLogs (retained : Option String) : List String :=
  match retained with
  | some e => [e]
  | none => []

/-- Brand each queue element in order with consecutive UUID draws: the
sequence of branded objects the loop sends when nothing fails. -/
def brandedList (G : ProdEnv) : List Object → Nat → List Object
  | [], _ => []
  | o :: rest, n => o.brand (G.uuidGen n) G.cksum :: brandedList G rest (n + 1)

/-- `qs` is an order-preserving interleaving of the two producers' enqueue
sequences `xs` (Supervisor) and `ys` (Data Listener): the shared channel
serializes concurrent sends into some such `qs`. -/
inductive Interleaving : List Object → List Object → List Object → Prop where
  | nil : Interleaving [] [] []
  | left {x xs ys zs} : Interleaving xs ys zs → Interleaving (x :: xs) ys (x :: zs)
  | right {y xs ys zs} : Interleaving xs ys zs → Interleaving xs (y :: ys) (y :: zs)

/-! ### Process Supervisor: `event` and `run` (wrap.go:83-133, 147-178) -/

/-- A POSIX signal, identified by the string `Signal.String()` yields. -/
structure OsSignal where
  name : String
deriving DecidableEq, Repr

/-- `syscall.WaitStatus` of a terminated child, restricted to the two
termination causes `event` distinguishes (POSIX; the non-POSIX
type-assertion-failure branch at wrap.go:84-88 is out of scope). -/
inductive WaitStatus where
  | exited (code : Nat) : WaitStatus
  | signaled (sig : OsSignal) : WaitStatus
deriving DecidableEq, Repr

/-- `WaitStatus.ExitStatus()`: the exit code if the child exited, `-1` if it
was killed by a signal. -/
def WaitStatus.exitStatus : WaitStatus → Int
  | .exited code => (code : Int)
  | .signaled _ => -1

/-- `WaitStatus.Signaled()`. -/
def WaitStatus.isSignaled : WaitStatus → Bool
  | .exited _ => false
  | .signaled _ => true

/-- `WaitStatus.Signal().String()`: the terminating signal's name; for a
child that exited normally, Go's `Signal()` returns `Signal(-1)`, whose
`String()` is `"signal -1"` (never reached by `event`, which guards with
`Signaled()`). -/
def WaitStatus.signalName : WaitStatus → String
  | .exited _ => "signal -1"
  | .signaled s => s.name

/-- The sampling outcomes of the three gopsutil calls in `event`
(wrap.go:98-113): `none` models a sampling error, in which case the
corresponding zero-initialized local keeps its zero value. -/
structure MetricsEnv where
  cpuPercent : Option Int
  memUsedPercent : Option Int
  net : Option (Nat × Nat)

/-- The metric-collection part of `event` (wrap.go:90-120): each failed
sample yields its zero value, never an error. -/
def sampleSystem (m : MetricsEnv) : System :=
  { cpuPercent := m.cpuPercent.getD 0
    memPercent := m.memUsedPercent.getD 0
    inbound := (m.net.map Prod.fst).getD 0
    outbound := (m.net.map Prod.snd).getD 0 }

/-- `event(state)` (wrap.go:83-133): build the Event for a terminated child.
`CheckSum` and `UUID` are left zero — they are assigned later by `brand()`.
`now` is the `time.Now()` reading. -/
def event (now : Nat) (m : MetricsEnv) (ws : WaitStatus) : Event :=
  { checkSum := ""
    uuid := ""
    time := now
    status := ws.exitStatus
    signal := if ws.isSignaled then ws.signalName else ""
    systemMetrics := sampleSystem m }

/-- The observable steps of the waiter goroutine spawned by `run`
(wrap.go:162-166). -/
inductive WaiterStep where
  | waitChild : WaiterStep
  | enqueueEvent (e : Event) : WaiterStep
  | signalDone : WaiterStep
deriving DecidableEq, Repr

/-- The waiter goroutine of `run` (wrap.go:162-166), as the sequence of its
observable steps: `cmd.Wait()` (returns when the child terminates), then
`obj <- event(cmd.ProcessState)`, then `done <- ...`. -/
def waiter (now : Nat) (m : MetricsEnv) (ws : WaitStatus) : List WaiterStep :=
  [.waitChild, .enqueueEvent (event now m ws), .signalDone]

/-- The Events a step sequence pushes onto the object channel. -/
def eventsEnqueued : List WaiterStep → List Event
  | [] => []
  | .enqueueEvent e :: rest => e :: eventsEnqueued rest
  | _ :: rest => eventsEnqueued rest

/-- `enqueuesAfterWait steps seen = true` iff every `enqueueEvent` in
`steps` is preceded by a `waitChild` (child termination); `seen` records
whether a `waitChild` has already occurred. -/
def enqueuesAfterWait : List WaiterStep → Bool → Bool
  | [], _ => true
  | .waitChild :: rest, _ => enqueuesAfterWait rest true
  | .enqueueEvent _ :: rest, seen => seen && enqueuesAfterWait rest seen
  | .signalDone :: rest, seen => enqueuesAfterWait rest seen

/-- `doneAfterWait steps seen = true` iff every `signalDone` in `steps` is
preceded by a `waitChild`. -/
def doneAfterWait : List WaiterStep → Bool → Bool
  | [], _ => true
  | .waitChild :: rest, _ => doneAfterWait rest true
  | .enqueueEvent _ :: rest, seen => doneAfterWait rest seen
  | .signalDone :: rest, seen => seen && doneAfterWait rest seen

/-- A message received by the `select` loop of `run` (wrap.go:168-177):
either an interrupt signal from the `sig` channel or the waiter's `done`
notification. -/
inductive RunMsg where
  | sig (s : OsSignal) : RunMsg
  | done : RunMsg
deriving DecidableEq, Repr

/-- The `select` loop of `run` (wrap.go:168-177), over the sequence of
channel messages it receives: each signal `s` is forwarded verbatim to the
child (`cmd.Process.Signal(s)`) and the loop continues; on `done` the loop
returns.  Result: (signals forwarded to the child in order, whether `run`
returned).  An empty remainder with no `done` means the loop is still
blocked in `select` — `run` has not returned. -/
def selectLoop : List RunMsg → List OsSignal × Bool
  | [] => ([], false)
  | .sig s :: rest =>
    let r := selectLoop rest
    (s :: r.1, r.2)
  | .done :: _ => ([], true)

/-- The signals occurring in a message sequence before the first `done`. -/
def sigsBeforeDone : List RunMsg → List OsSignal
  | [] => []
  | .sig s :: rest => s :: sigsBeforeDone rest
  | .done :: _ => []

/-- Whether a `done` message occurs in the sequence. -/
def hasDone : List RunMsg → Bool
  | [] => false
  | .sig _ :: rest => hasDone rest
  | .done :: _ => true

/-! ### Data Channel Listener: the `relay` read loop (wrap.go:235-255) -/

/-- Why `bufio.Scanner.Scan()` returned `false`, ending the read loop:
clean EOF from the client, an underlying socket read error, or a line
exceeding the scanner's maximum token size.  The loop body at
wrap.go:244-254 never consults `line.Err()`, so the reason is invisible to
it. -/
inductive ScanEnd where
  | eof : ScanEnd
  | readErr : ScanEnd
  | tooLong : ScanEnd
deriving DecidableEq, Repr

/-- The Profile built for one decoded line (wrap.go:245-246): a fresh
zero-valued `Profile` whose `Profile` field receives the unmarshalled JSON
value; `CheckSum`/`UUID` stay zero until branding. -/
def mkProfile (j : Json) : Profile :=
  { checkSum := "", uuid := "", profile := j }

/-- The scan loop of the `relay` goroutine (wrap.go:244-255), over the lines
the scanner yields and the reason scanning stopped.  `unmarshal` is
`json.Unmarshal` restricted to one line.  Per line: decode; on error, send
the error on `done` and return at once (no further lines processed); on
success enqueue the Profile and continue.  When the scanner stops — for any
`ScanEnd` reason — send `nil` on `done`.  Returns (Profiles enqueued in
order, the error sent on `done`). -/
def relayLoop (unmarshal : String → Except String Json) :
    List String → ScanEnd → List Profile × Option String
  | [], _ => ([], none)
  | l :: rest, stop =>
    match unmarshal l with
    | .error err => ([], some err)
    | .ok j =>
      let r := relayLoop unmarshal rest stop
      (mkProfile j :: r.1, r.2)

/-! ### Integrity Gate: `valid` (wrap.go:346-364) and its use in `main`
(wrap.go:408-412) -/

/-- `valid(sum)` (wrap.go:346-364): GET `BASE_URL + "/check_releases/" + sum`;
status 200 means recognized, 404 means unrecognized, anything else (or a
transport error) is `log.Panic`, modelled as `Except.error`.  `get` is the
HTTP client, returning a status code or a transport error. -/
def valid (get : String → Except String Nat) (baseURL sum : String) :
    Except String Bool :=
  match get (baseURL ++ "/check_releases/" ++ sum) with
  | .error e => .error e
  | .ok code =>
    if code = 200 then .ok true
    else if code = 404 then .ok false
    else .error ("wrapper: valid: got unexpected status " ++ toString code)

/-- The digest-check step of `main` (wrap.go:408-412): if `valid` reports
the checksum unrecognized, only log `"invalid checksum: ..."` and proceed
(the `log.Fatal` is commented out); a `valid` panic propagates.  Returns the
log lines on the proceeding paths. -/
def digestCheck (get : String → Except String Nat) (baseURL sum : String) :
    Except String (List String) :=
  match valid get baseURL sum with
  | .error e => .error e
  | .ok true => .ok []
  | .ok false => .ok ["invalid checksum: " ++ sum]

/-! ### Concrete fixtures (used by the witness theorems) -/

/-- A concrete metrics sample. -/
def testSystem : System := ⟨7, 42, 100, 200⟩

/-- A concrete unbranded Event, as `event` builds it for exit status 0. -/
def testEvent : Event := ⟨"", "", 5, 0, "", testSystem⟩

/-- A concrete unbranded Profile. -/
def testProfile : Profile := ⟨"", "", Json.num 1⟩

/-- A second concrete unbranded Profile. -/
def testProfile2 : Profile := ⟨"", "", Json.num 2⟩

/-- A produce environment whose broker and codec always succeed. -/
def okEnv : ProdEnv :=
  ⟨"digest", fun _ => "u", "events", "profiles",
   fun _ => .ok "bytes", fun _ _ => .ok ()⟩

/-- A produce environment whose broker rejects sends on the event topic. -/
def failEnv : ProdEnv :=
  ⟨"digest", fun _ => "u", "events", "profiles",
   fun _ => .ok "bytes",
   fun t _ => if t = "events" then .error "broker down" else .ok ()⟩

/-- A concrete single-line JSON codec: `"1"` and `"2"` decode, anything else
fails. -/
def testUnmarshal : String → Except String Json := fun l =>
  if l = "1" then .ok (Json.num 1)
  else if l = "2" then .ok (Json.num 2)
  else .error "invalid character"

/-- A concrete HTTP client for the integrity authority: status is 200 for
the digest `"good"`, 404 for `"bad"`, 500 otherwise. -/
def testGet : String → Except String Nat := fun url =>
  if url = "https://api/check_releases/good" then .ok 200
  else if url = "https://api/check_releases/bad" then .ok 404
  else .ok 500

/-! ### Helper lemmas -/

/-- Branding always writes the given checksum into the checksum field. -/
theorem Object.brand_checkSum (u c : String) (o : Object) :
    (o.brand u c).checkSum = c := by
  cases o <;> rfl

/-- A successful `processItem` delivers exactly the branded object. -/
theorem processItem_ok_obj {G : ProdEnv} {o : Object} {n : Nat} {d : Delivery}
    (h : processItem G o n = Except.ok d) :
    d.obj = o.brand (G.uuidGen n) G.cksum := by
  simp only [processItem] at h
  split at h
  · exact absurd h (by simp)
  · split at h
    · exact absurd h (by simp)
    · cases h
      rfl

/-- When the codec and the broker never fail, the produce loop delivers the
branded queue, in queue order, and retains no error. -/
theorem produceLoop_all_ok (G : ProdEnv)
    (hm : ∀ o, ∃ b, G.marshal o = Except.ok b)
    (hs : ∀ t b, G.send t b = Except.ok ()) :
    ∀ (qs : List Object) (n : Nat),
      (produceLoop G qs n).1.map Delivery.obj = brandedList G qs n ∧
      (produceLoop G qs n).2 = none := by
  intro qs
  induction qs with
  | nil => intro n; exact ⟨rfl, rfl⟩
  | cons o rest ih =>
    intro n
    obtain ⟨b, hb⟩ := hm (o.brand (G.uuidGen n) G.cksum)
    have hpi : processItem G o n =
        Except.ok ⟨(o.brand (G.uuidGen n) G.cksum).topic G, b,
                   o.brand (G.uuidGen n) G.cksum⟩ := by
      simp [processItem, hb, hs]
    simp only [produceLoop, hpi, brandedList, List.map]
    exact ⟨by rw [(ih (n + 1)).1], (ih (n + 1)).2⟩

/-- The branded queue has the length of the queue. -/
theorem brandedList_length (G : ProdEnv) :
    ∀ (qs : List Object) (n : Nat), (brandedList G qs n).length = qs.length := by
  intro qs
  induction qs with
  | nil => intro n; rfl
  | cons o rest ih => intro n; simpa [brandedList] using ih (n + 1)

/-- When the codec and the broker never fail, the produce loop delivers one
message per enqueued object. -/
theorem produceLoop_length_all_ok (G : ProdEnv)
    (hm : ∀ o, ∃ b, G.marshal o = Except.ok b)
    (hs : ∀ t b, G.send t b = Except.ok ())
    (qs : List Object) (n : Nat) :
    (produceLoop G qs n).1.length = qs.length := by
  have h := (produceLoop_all_ok G hm hs qs n).1
  have := congrArg List.length h
  simpa [brandedList_length] using this

/-- The relay read loop never inspects why the scanner stopped. -/
theorem relayLoop_stop_irrelevant (unmarshal : String → Except String Json) :
    ∀ (lines : List String) (s₁ s₂ : ScanEnd),
      relayLoop unmarshal lines s₁ = relayLoop unmarshal lines s₂ := by
  intro lines
  induction lines with
  | nil => intro s₁ s₂; rfl
  | cons l rest ih =>
    intro s₁ s₂
    simp only [relayLoop]
    cases unmarshal l with
    | error e => rfl
    | ok j => rw [ih s₁ s₂]

/-- On an all-valid line sequence the relay loop enqueues exactly the decoded
Profiles, in order, and retains no error. -/
theorem relayLoop_all_ok (unmarshal : String → Except String Json)
    {lines : List String} {vals : List Json}
    (h : List.Forall₂ (fun l j => unmarshal l = Except.ok j) lines vals)
    (stop : ScanEnd) :
    relayLoop unmarshal lines stop = (vals.map mkProfile, none) := by
  induction h with
  | nil => rfl
  | cons hd tl ih => simp [relayLoop, hd, ih]

/-! ### Claim theorems -/

/-- C1: For every sequence of Relayable items enqueued on the shared queue —
any interleaving of the Supervisor's and the Data Listener's enqueue
sequences — the Outbound Relay delivers them to the broker in exactly their
enqueue order: one dequeue at a time, each send completed before the next
dequeue, no reordering, no parallel delivery (when no serialization or
delivery failure occurs). -/
theorem produce_delivers_in_enqueue_order (G : ProdEnv)
    (supQ dataQ qs : List Object) (hq : Interleaving supQ dataQ qs)
    (hm : ∀ o, ∃ b, G.marshal o = Except.ok b)
    (hs : ∀ t b, G.send t b = Except.ok ()) (n : Nat) :
    (produceLoop G qs n).1.map Delivery.obj = brandedList G qs n ∧
    (produceLoop G qs n).2 = none :=
  produceLoop_all_ok G hm hs qs n

/-- Witness for C1: a concrete interleaving (Profile, Event, Profile) is
delivered in exactly that order. -/
theorem produce_delivers_in_enqueue_order_witness :
    Interleaving [Object.ev testEvent] [Object.prof testProfile, Object.prof testProfile2]
      [Object.prof testProfile, Object.ev testEvent, Object.prof testProfile2] ∧
    ((produceLoop okEnv
        [Object.prof testProfile, Object.ev testEvent, Object.prof testProfile2] 0).1.map
          Delivery.obj =
      brandedList okEnv
        [Object.prof testProfile, Object.ev testEvent, Object.prof testProfile2] 0 ∧
     (produceLoop okEnv
        [Object.prof testProfile, Object.ev testEvent, Object.prof testProfile2] 0).2 =
      none) :=
  ⟨.right (.left (.right .nil)),
   produce_delivers_in_enqueue_order okEnv
     [Object.ev testEvent] [Object.prof testProfile, Object.prof testProfile2]
     [Object.prof testProfile, Object.ev testEvent, Object.prof testProfile2]
     (.right (.left (.right .nil)))
     (fun _ => ⟨"bytes", rfl⟩) (fun _ _ => rfl) 0⟩

/-- C4: If the shared queue is closed only after all producers have finished
writing (its content is the finite list `qs`), the Outbound Relay delivers
every enqueued item before its close handle returns: nothing is discarded,
closure is observed only after the drain, and the close handle logs no error
(when no serialization or delivery failure occurs). -/
theorem queue_close_drains_all (G : ProdEnv) (qs : List Object) (n : Nat)
    (hm : ∀ o, ∃ b, G.marshal o = Except.ok b)
    (hs : ∀ t b, G.send t b = Except.ok ()) :
    (produceLoop G qs n).1.length = qs.length ∧
    (produceLoop G qs n).2 = none ∧
    closeHandleLogs (produceLoop G qs n).2 = [] := by
  refine ⟨produceLoop_length_all_ok G hm hs qs n,
          (produceLoop_all_ok G hm hs qs n).2, ?_⟩
  rw [(produceLoop_all_ok G hm hs qs n).2]
  rfl

/-- Witness for C4: both items of a concrete two-element queue are delivered
and the close handle logs nothing. -/
theorem queue_close_drains_all_witness :
    (produceLoop okEnv [Object.prof testProfile, Object.ev testEvent] 0).1.length =
      [Object.prof testProfile, Object.ev testEvent].length ∧
    (produceLoop okEnv [Object.prof testProfile, Object.ev testEvent] 0).2 = none ∧
    closeHandleLogs (produceLoop okEnv [Object.prof testProfile, Object.ev testEvent] 0).2 =
      [] :=
  queue_close_drains_all okEnv [Object.prof testProfile, Object.ev testEvent] 0
    (fun _ => ⟨"bytes", rfl⟩) (fun _ _ => rfl)

/-- C5: Every item delivered to the broker carries, after branding, the
checksum `G.cksum` — the Executable Integrity Digest computed once at startup
and never reassigned — so all delivered items of a run have the same
checksum.  This holds on every run, including runs aborted by a failure. -/
theorem delivered_checksum_is_digest (G : ProdEnv) (qs : List Object) (n : Nat)
    (d : Delivery) (hd : d ∈ (produceLoop G qs n).1) :
    d.obj.checkSum = G.cksum := by
  induction qs generalizing n with
  | nil => simp [produceLoop] at hd
  | cons o rest ih =>
    cases hpi : processItem G o n with
    | error e =>
      simp only [produceLoop, hpi] at hd
      simp at hd
    | ok d₀ =>
      simp only [produceLoop, hpi] at hd
      rcases List.mem_cons.mp hd with rfl | hmem
      · rw [processItem_ok_obj hpi, Object.brand_checkSum]
      · exact ih (n + 1) hmem

/-- Witness for C5: the one delivery of a concrete run carries the digest. -/
theorem delivered_checksum_is_digest_witness :
    (⟨"profiles", "bytes", Object.prof ⟨"digest", "u", Json.num 1⟩⟩ : Delivery) ∈
      (produceLoop okEnv [Object.prof testProfile] 0).1 ∧
    (Object.prof (⟨"digest", "u", Json.num 1⟩ : Profile)).checkSum = okEnv.cksum := by
  have hmem : (⟨"profiles", "bytes", Object.prof ⟨"digest", "u", Json.num 1⟩⟩ : Delivery) ∈
      (produceLoop okEnv [Object.prof testProfile] 0).1 :=
    List.mem_singleton.mpr rfl
  exact ⟨hmem,
    delivered_checksum_is_digest okEnv [Object.prof testProfile] 0 _ hmem⟩

/-- C7: If serializing or delivering one item fails, the produce loop aborts
at once: the retained error is exactly that failure, the deliveries are
exactly those made before the failure (neither retried nor rolled back), and
nothing after the failing item is ever dequeued. -/
theorem produce_failure_aborts_loop (G : ProdEnv) (pre post : List Object)
    (o : Object) (n : Nat) (e : String) (ds : List Delivery)
    (hpre : produceLoop G pre n = (ds, none))
    (hfail : processItem G o (n + pre.length) = Except.error e) :
    produceLoop G (pre ++ o :: post) n = (ds, some e) := by
  induction pre generalizing n ds with
  | nil =>
    have hds : ds = [] := by
      have h := congrArg Prod.fst hpre
      simpa [produceLoop] using h.symm
    subst hds
    have hfail₀ : processItem G o n = Except.error e := by
      simpa using hfail
    simp [produceLoop, hfail₀]
  | cons x xs ih =>
    cases hx : processItem G x n with
    | error err =>
      rw [produceLoop, hx] at hpre
      simp at hpre
    | ok d₀ =>
      rw [produceLoop, hx] at hpre
      have h1 : d₀ :: (produceLoop G xs (n + 1)).1 = ds := congrArg Prod.fst hpre
      have h2 : (produceLoop G xs (n + 1)).2 = none := congrArg Prod.snd hpre
      have hpre₂ : produceLoop G xs (n + 1) = ((produceLoop G xs (n + 1)).1, none) := by
        rw [← h2]
      have hfail₂ : processItem G o ((n + 1) + xs.length) = Except.error e := by
        have harith : (n + 1) + xs.length = n + (x :: xs).length := by
          simp [List.length_cons]
          omega
        rw [harith]
        exact hfail
      have hrec := ih (n + 1) (produceLoop G xs (n + 1)).1 hpre₂ hfail₂
      rw [List.cons_append, produceLoop, hx, hrec, ← h1]

/-- Witness for C7: with a broker that rejects the event topic, the delivery
before the failing Event is kept, the error is retained, and the item after
it is never delivered. -/
theorem produce_failure_aborts_loop_witness :
    produceLoop failEnv [Object.prof testProfile] 0 =
      ([⟨"profiles", "bytes", Object.prof ⟨"digest", "u", Json.num 1⟩⟩], none) ∧
    processItem failEnv (Object.ev testEvent) (0 + [Object.prof testProfile].length) =
      Except.error "broker down" ∧
    produceLoop failEnv
        ([Object.prof testProfile] ++ Object.ev testEvent :: [Object.prof testProfile2]) 0 =
      ([⟨"profiles", "bytes", Object.prof ⟨"digest", "u", Json.num 1⟩⟩], some "broker down") :=
  ⟨rfl, rfl,
   produce_failure_aborts_loop failEnv [Object.prof testProfile] [Object.prof testProfile2]
     (Object.ev testEvent) 0 "broker down"
     [⟨"profiles", "bytes", Object.prof ⟨"digest", "u", Json.num 1⟩⟩] rfl rfl⟩

/-- C2: For every supervised run, the waiter goroutine enqueues exactly one
Event, only after `cmd.Wait()` has returned (the child has terminated), and
its fields reflect the true termination: on a normal exit with code `c`,
`exit_status = c` and `signal` is empty; on death by signal `s`, `signal`
names `s` and `exit_status` is the signaled-state value `-1`. -/
theorem run_enqueues_one_true_event (now : Nat) (m : MetricsEnv) (ws : WaitStatus) :
    eventsEnqueued (waiter now m ws) = [event now m ws] ∧
    enqueuesAfterWait (waiter now m ws) false = true ∧
    (match ws with
     | .exited code =>
        (event now m ws).status = (code : Int) ∧ (event now m ws).signal = ""
     | .signaled s =>
        (event now m ws).signal = s.name ∧ (event now m ws).status = -1) := by
  refine ⟨rfl, rfl, ?_⟩
  cases ws with
  | exited code =>
    exact ⟨rfl, rfl⟩
  | signaled s =>
    exact ⟨rfl, rfl⟩

/-- C9: Every interrupt signal the `select` loop of `run` receives while the
child is alive is forwarded to the child identically and in order, the loop
keeps waiting after each one, it returns exactly when the waiter's `done`
message arrives, and the waiter emits `done` only after the child has
terminated — so `run` never returns before the child does. -/
theorem run_forwards_signals_until_child_exit (msgs : List RunMsg)
    (now : Nat) (m : MetricsEnv) (ws : WaitStatus) :
    (selectLoop msgs).1 = sigsBeforeDone msgs ∧
    (selectLoop msgs).2 = hasDone msgs ∧
    doneAfterWait (waiter now m ws) false = true := by
  have h : ∀ ms : List RunMsg,
      (selectLoop ms).1 = sigsBeforeDone ms ∧ (selectLoop ms).2 = hasDone ms := by
    intro ms
    induction ms with
    | nil => exact ⟨rfl, rfl⟩
    | cons hd tl ih =>
      cases hd with
      | sig s =>
        exact ⟨by simp [selectLoop, sigsBeforeDone, ih.1],
               by simp [selectLoop, hasDone, ih.2]⟩
      | done => exact ⟨rfl, rfl⟩
  exact ⟨(h msgs).1, (h msgs).2, rfl⟩

/-- C3: For every all-valid line sequence received before the client closes
the connection, the relay read loop enqueues exactly one Profile per line, in
line order, each carrying the decoded JSON value unmodified, and retains no
error. -/
theorem relay_one_profile_per_line (unmarshal : String → Except String Json)
    (lines : List String) (vals : List Json) (stop : ScanEnd)
    (h : List.Forall₂ (fun l j => unmarshal l = Except.ok j) lines vals) :
    relayLoop unmarshal lines stop = (vals.map mkProfile, none) :=
  relayLoop_all_ok unmarshal h stop

/-- Witness for C3: two concrete valid lines yield the two decoded Profiles
in order. -/
theorem relay_one_profile_per_line_witness :
    List.Forall₂ (fun l j => testUnmarshal l = Except.ok j)
      ["1", "2"] [Json.num 1, Json.num 2] ∧
    relayLoop testUnmarshal ["1", "2"] .eof =
      ([mkProfile (Json.num 1), mkProfile (Json.num 2)], none) :=
  ⟨.cons rfl (.cons rfl .nil),
   relay_one_profile_per_line testUnmarshal ["1", "2"] [Json.num 1, Json.num 2] .eof
     (.cons rfl (.cons rfl .nil))⟩

/-- C6: A line that fails JSON decoding aborts the read loop at once: the
Profiles enqueued before it are exactly the decoded prefix (none lost), no
later line is processed, the decode error is retained and reported by the
close handle, and the rest of the pipeline is unaffected — the produce loop
still delivers every queued Profile and the Supervisor's Event. -/
theorem relay_malformed_line_stops_feed (unmarshal : String → Except String Json)
    (good : List String) (vals : List Json) (bad : String) (rest : List String)
    (stop : ScanEnd) (err : String)
    (hgood : List.Forall₂ (fun l j => unmarshal l = Except.ok j) good vals)
    (hbad : unmarshal bad = Except.error err)
    (G : ProdEnv) (hm : ∀ o, ∃ b, G.marshal o = Except.ok b)
    (hs : ∀ t b, G.send t b = Except.ok ()) (ev : Event) :
    relayLoop unmarshal (good ++ bad :: rest) stop = (vals.map mkProfile, some err) ∧
    closeHandleLogs (some err) = [err] ∧
    (produceLoop G ((vals.map mkProfile).map Object.prof ++ [Object.ev ev]) 0).1.length =
      vals.length + 1 := by
  refine ⟨?_, rfl, ?_⟩
  · induction hgood with
    | nil => simp [relayLoop, hbad]
    | cons hd tl ih => simp [relayLoop, hd, ih]
  · rw [produceLoop_length_all_ok G hm hs]
    simp

/-- Witness for C6: after one good line and one malformed line, the single
prior Profile is kept, the error is reported at close, and the pipeline still
delivers the Profile and the Event. -/
theorem relay_malformed_line_stops_feed_witness :
    List.Forall₂ (fun l j => testUnmarshal l = Except.ok j) ["1"] [Json.num 1] ∧
    testUnmarshal "x" = Except.error "invalid character" ∧
    (relayLoop testUnmarshal (["1"] ++ "x" :: ["2"]) .eof =
       ([mkProfile (Json.num 1)], some "invalid character") ∧
     closeHandleLogs (some "invalid character") = ["invalid character"] ∧
     (produceLoop okEnv
        (([Json.num 1].map mkProfile).map Object.prof ++ [Object.ev testEvent]) 0).1.length =
       [Json.num 1].length + 1) :=
  ⟨.cons rfl .nil, rfl,
   relay_malformed_line_stops_feed testUnmarshal ["1"] [Json.num 1] "x" ["2"] .eof
     "invalid character" (.cons rfl .nil) rfl okEnv
     (fun _ => ⟨"bytes", rfl⟩) (fun _ _ => rfl) testEvent⟩

/-- C10: The relay read loop never inspects why the scanner stopped: a run
ended by a socket read error or an over-long line produces exactly the same
result as one ended by clean EOF, and — when every scanned line decoded —
the retained error is `nil`, so the close handle reports nothing and the
failure is indistinguishable at shutdown from a normal client close. -/
theorem relay_scan_failure_reports_nil (unmarshal : String → Except String Json)
    (lines : List String) (vals : List Json)
    (h : List.Forall₂ (fun l j => unmarshal l = Except.ok j) lines vals) :
    relayLoop unmarshal lines .readErr = relayLoop unmarshal lines .eof ∧
    relayLoop unmarshal lines .tooLong = relayLoop unmarshal lines .eof ∧
    (relayLoop unmarshal lines .readErr).2 = none ∧
    (relayLoop unmarshal lines .tooLong).2 = none ∧
    closeHandleLogs (relayLoop unmarshal lines .readErr).2 = [] := by
  refine ⟨relayLoop_stop_irrelevant unmarshal lines .readErr .eof,
          relayLoop_stop_irrelevant unmarshal lines .tooLong .eof, ?_, ?_, ?_⟩ <;>
    rw [relayLoop_all_ok unmarshal h] <;> rfl

/-- Witness for C10: a concrete run whose scan stopped on a read error is
identical to the clean-EOF run and reports no error at close. -/
theorem relay_scan_failure_reports_nil_witness :
    List.Forall₂ (fun l j => testUnmarshal l = Except.ok j) ["1"] [Json.num 1] ∧
    (relayLoop testUnmarshal ["1"] .readErr = relayLoop testUnmarshal ["1"] .eof ∧
     relayLoop testUnmarshal ["1"] .tooLong = relayLoop testUnmarshal ["1"] .eof ∧
     (relayLoop testUnmarshal ["1"] .readErr).2 = none ∧
     (relayLoop testUnmarshal ["1"] .tooLong).2 = none ∧
     closeHandleLogs (relayLoop testUnmarshal ["1"] .readErr).2 = []) :=
  ⟨.cons rfl .nil,
   relay_scan_failure_reports_nil testUnmarshal ["1"] [Json.num 1] (.cons rfl .nil)⟩

/-- C8: The integrity lookup returns recognized exactly on authority status
200 and unrecognized exactly on 404; any other status is a fatal local error
(`log.Panic`), and on an unrecognized digest `main` only logs and the run
proceeds. -/
theorem valid_status_mapping (get : String → Except String Nat)
    (baseURL sum : String) (code : Nat)
    (hget : get (baseURL ++ "/check_releases/" ++ sum) = Except.ok code) :
    (valid get baseURL sum = Except.ok true ↔ code = 200) ∧
    (valid get baseURL sum = Except.ok false ↔ code = 404) ∧
    (code ≠ 200 → code ≠ 404 →
      valid get baseURL sum =
        Except.error ("wrapper: valid: got unexpected status " ++ toString code)) ∧
    (code = 404 → digestCheck get baseURL sum = Except.ok ["invalid checksum: " ++ sum]) := by
  by_cases h200 : code = 200
  · subst h200
    refine ⟨?_, ?_, ?_, ?_⟩ <;> simp [valid, digestCheck, hget]
  · by_cases h404 : code = 404
    · subst h404
      refine ⟨?_, ?_, ?_, ?_⟩ <;> simp [valid, digestCheck, hget]
    · refine ⟨?_, ?_, ?_, ?_⟩ <;> simp [valid, digestCheck, hget, h200, h404]

/-- Witness for C8: with a concrete authority, digest `"bad"` maps to 404,
is reported unrecognized, and the run proceeds with only a log line. -/
theorem valid_status_mapping_witness :
    testGet ("https://api" ++ "/check_releases/" ++ "bad") = Except.ok 404 ∧
    ((valid testGet "https://api" "bad" = Except.ok true ↔ (404 : Nat) = 200) ∧
     (valid testGet "https://api" "bad" = Except.ok false ↔ (404 : Nat) = 404) ∧
     ((404 : Nat) ≠ 200 → (404 : Nat) ≠ 404 →
       valid testGet "https://api" "bad" =
         Except.error ("wrapper: valid: got unexpected status " ++ toString (404 : Nat))) ∧
     ((404 : Nat) = 404 →
       digestCheck testGet "https://api" "bad" =
         Except.ok ["invalid checksum: " ++ "bad"])) :=
  ⟨rfl, valid_status_mapping testGet "https://api" "bad" 404 rfl⟩

end Wrap
